import Mathlib

/-!
Shallow embedding of the mcp-discord session/resource manager
(`DiscordClientManager`, the response-handler registry, and the
resolver helpers `findGuild` / `findChannel`), with theorems checking
the natural-language specification against it.

JS `Map`s are modelled as insertion-ordered association lists with the
`Map.get` / `Map.set` / `Map.delete` / `Map.has` semantics.  Machine
timestamps (`Date.now()`) are `Nat`.  Async suspension points matter
only for the session-pool claims and are modelled there by an explicit
small-step interleaving.
-/

namespace McpDiscord

/-- JS `s.toLowerCase()`, as a character list (ASCII case folding). -/
def lowerStr (s : String) : List Char :=
  s.data.map Char.toLower

/-- JS `a.toLowerCase() === b.toLowerCase()` on two strings. -/
def strEqCI (a b : String) : Bool :=
  lowerStr a == lowerStr b

/-- `needle` occurs contiguously inside `haystack` (JS `includes`). -/
def listIsInfixOf (needle : List Char) : List Char → Bool
  | [] => needle.isEmpty
  | c :: cs => needle.isPrefixOf (c :: cs) || listIsInfixOf needle cs

/-- JS `haystack.toLowerCase().includes(needle.toLowerCase())`:
case-insensitive substring test. -/
def strIncludesCI (haystack needle : String) : Bool :=
  listIsInfixOf (lowerStr needle) (lowerStr haystack)

/-- Remove the first occurrence of a character from a character list:
JS `s.replace('#', '')` removes only the FIRST `#`. -/
def removeFirstChar (c : Char) : List Char → List Char
  | [] => []
  | x :: xs => if x = c then xs else x :: removeFirstChar c xs

/-- JS truthiness of a `string | undefined` value: `undefined` and the
empty string are falsy, every other string is truthy. -/
def jsTruthy : Option String → Bool
  | none => false
  | some s => s != ""

/-- `Map.prototype.get`: value of the first (unique) entry with this key. -/
def mapGet {β : Type} (m : List (String × β)) (k : String) : Option β :=
  (m.find? (fun p => p.1 == k)).map (·.2)

/-- `Map.prototype.set`: update in place when the key exists, otherwise
append at the end (insertion order preserved). -/
def mapSet {β : Type} (m : List (String × β)) (k : String) (v : β) :
    List (String × β) :=
  match m with
  | [] => [(k, v)]
  | (k', v') :: rest =>
      if k' == k then (k, v) :: rest else (k', v') :: mapSet rest k v

/-- `Map.prototype.delete`: remove the entry with this key. -/
def mapDelete {β : Type} (m : List (String × β)) (k : String) :
    List (String × β) :=
  match m with
  | [] => []
  | (k', v') :: rest =>
      if k' == k then rest else (k', v') :: mapDelete rest k

/-- `Map.prototype.has`. -/
def mapHas {β : Type} (m : List (String × β)) (k : String) : Bool :=
  (mapGet m k).isSome

/-- Modelled from the spec: the generic Retry Executor
(`retryWithExponentialBackoff` from the external `@missionsquad/common`
package, whose source is not in this repository).  Spec §4.1: call the
operation; on success return immediately; on failure, while attempts
remain, invoke the retry observer and retry; after `maxAttempts` failed
attempts propagate the last failure unchanged.  The operation is indexed
by the attempt number so that per-attempt (transient) behaviour can be
expressed; the backoff delays are timing-only and not modelled.  The
result is paired with the total number of attempts performed, so
`attempts - 1` is the number of retries (= `onRetry` invocations). -/
def retryFrom {ε α : Type} (op : Nat → Except ε α) :
    Nat → Nat → Except ε α × Nat
  | attempt, remaining =>
    match op attempt with
    | .ok a => (.ok a, attempt + 1)
    | .error e =>
      match remaining with
      | 0 => (.error e, attempt + 1)
      | r + 1 => retryFrom op (attempt + 1) r

/-- Modelled from the spec: see `retryFrom`.  `maxAttempts` is the
`maxRetries` argument the manager passes from its config (≥ 1). -/
def retryWithExponentialBackoff {ε α : Type} (op : Nat → Except ε α)
    (maxAttempts : Nat) : Except ε α × Nat :=
  retryFrom op 0 (maxAttempts - 1)

/-! ## Resolver data model -/

/-- A guild (server) as seen in `client.guilds.cache`. -/
structure Guild where
  id : String
  name : String
deriving Repr, DecidableEq

/-- A channel; `guildId` is `channel.guild.id`, `isText` is
`channel instanceof TextChannel`. -/
structure Channel where
  id : String
  name : String
  guildId : String
  isText : Bool
deriving Repr, DecidableEq

/-- The remote state visible through one `discord.js` `Client`:
`guilds` is `client.guilds.cache` (fetch-by-id of a guild succeeds
exactly on these), `channels` is every channel visible to the client
(`client.channels.fetch` by id). -/
structure DiscordClient where
  guilds : List Guild
  channels : List Channel
deriving Repr, DecidableEq

/-- The failure classes of `findGuild` (each constructor carries the
data interpolated into the thrown `Error` message). -/
inductive GuildError
  | multipleServersNoId (availableNames : List String)
  | serverNotFound (ident : String) (availableNames : List String)
  | multipleServersByName (ident : String) (found : List (String × String))
deriving Repr, DecidableEq

/-- One attempt of `DiscordClientManager.findGuild` (the async closure
passed to the retry wrapper).  No identifier: a sole cached guild is
returned, otherwise the "Bot is in multiple servers" error is thrown
listing all cached guild names.  With an identifier: fetch by id first;
if that fails, case-insensitive exact name match over the cache with the
zero/one/many outcome. -/
def findGuildOnce (client : DiscordClient) (guildIdentifier : Option String) :
    Except GuildError Guild :=
  match guildIdentifier with
  | none =>
    match client.guilds with
    | [g] => .ok g
    | _ => .error (.multipleServersNoId (client.guilds.map (·.name)))
  | some ident =>
    match client.guilds.find? (fun g => g.id == ident) with
    | some g => .ok g
    | none =>
      match client.guilds.filter (fun g => strEqCI g.name ident) with
      | [] => .error (.serverNotFound ident (client.guilds.map (·.name)))
      | [g] => .ok g
      | gs => .error (.multipleServersByName ident (gs.map (fun g => (g.name, g.id))))

/-- `DiscordClientManager.findGuild`: the attempt above wrapped in
`retryWithExponentialBackoff` with `config.maxRetries`.  The attempt is
deterministic in the cached state, so it is a constant operation. -/
def findGuild (client : DiscordClient) (guildIdentifier : Option String)
    (maxRetries : Nat) : Except GuildError Guild × Nat :=
  retryWithExponentialBackoff (fun _ => findGuildOnce client guildIdentifier) maxRetries

/-- The failure classes of `findChannel`. -/
inductive ChannelError
  | guildFailure (e : GuildError)
  | channelNotFound (ident guildName : String) (availableNames : List String)
  | multipleChannels (ident guildName : String) (found : List (String × String))
  | notTextOrNotInGuild (ident guildName : String)
deriving Repr, DecidableEq

/-- `guild.channels.cache` of one guild. -/
def guildChannels (client : DiscordClient) (g : Guild) : List Channel :=
  client.channels.filter (fun c => c.guildId == g.id)

/-- One attempt of `DiscordClientManager.findChannel`: resolve the guild,
then fetch the channel by id (accepted only when it is a text channel of
that guild; a successful fetch of a wrong channel does NOT fall back to
the name search), otherwise search the guild's text channels by
case-insensitive name, also accepting the identifier with its first `#`
stripped, with the zero/one/many outcome. -/
def findChannelOnce (client : DiscordClient) (channelIdentifier : String)
    (guildIdentifier : Option String) : Except ChannelError Channel :=
  match findGuildOnce client guildIdentifier with
  | .error e => .error (.guildFailure e)
  | .ok guild =>
    match client.channels.find? (fun c => c.id == channelIdentifier) with
    | some c =>
      if c.isText && c.guildId == guild.id then .ok c
      else .error (.notTextOrNotInGuild channelIdentifier guild.name)
    | none =>
      match (guildChannels client guild).filter (fun c =>
          c.isText &&
          (lowerStr c.name == lowerStr channelIdentifier ||
           lowerStr c.name == removeFirstChar '#' (lowerStr channelIdentifier))) with
      | [] =>
        .error (.channelNotFound channelIdentifier guild.name
          (((guildChannels client guild).filter (·.isText)).map (·.name)))
      | [c] => .ok c
      | cs =>
        .error (.multipleChannels channelIdentifier guild.name
          (cs.map (fun c => (c.name, c.id))))

/-- `DiscordClientManager.findChannel`: the attempt wrapped in
`retryWithExponentialBackoff` with `config.maxRetries`. -/
def findChannel (client : DiscordClient) (channelIdentifier : String)
    (guildIdentifier : Option String) (maxRetries : Nat) :
    Except ChannelError Channel × Nat :=
  retryWithExponentialBackoff
    (fun _ => findChannelOnce client channelIdentifier guildIdentifier) maxRetries

/-! ## Listeners, handler registry, dispatch -/

/-- `ListenerOptions` (src/types.ts): optional scope, keywords,
handler id, opaque handler options, optional description. -/
structure ListenerOptions where
  serverId : Option String := none
  channelId : Option String := none
  keywords : List String
  handlerId : String
  handlerOptions : Option String := none
  description : Option String := none
deriving Repr, DecidableEq

/-- `MessageListener` (src/types.ts). -/
structure MessageListener where
  id : String
  options : ListenerOptions
  active : Bool
  createdAt : Nat
deriving Repr, DecidableEq

/-- `ListenerInfo` (src/types.ts), the read-only projection returned by
`getListeners`; `createdAt` keeps the timestamp (`toISOString` is a pure
rendering of it). -/
structure ListenerInfo where
  id : String
  serverId : Option String
  channelId : Option String
  keywords : List String
  handlerId : String
  description : Option String
  active : Bool
  createdAt : Nat
deriving Repr, DecidableEq

/-- An inbound `messageCreate` event.  `guildId` is `message.guild?.id`
(`none` outside a guild), `channelId` is `message.channel.id`,
`authorBot` is `message.author.bot`. -/
structure Msg where
  authorBot : Bool
  guildId : Option String
  channelId : String
  content : String

/-- `ResponseHandler` (src/types.ts).  `handle message options` models
`handle(message, client, options)`: `.ok ()` a resolved promise,
`.error e` a rejection with message `e`. -/
structure ResponseHandler where
  id : String
  name : String
  description : String
  handle : Msg → Option String → Except String Unit

/-- `ResponseHandlerRegistry` (src/response-handlers/registry.ts):
a `Map` from handler id to handler. -/
structure HandlerRegistry where
  handlers : List (String × ResponseHandler)

/-- `ResponseHandlerRegistry.register`: `Map.set` keyed by the handler's
own id (last write wins). -/
def register (r : HandlerRegistry) (h : ResponseHandler) : HandlerRegistry :=
  { handlers := mapSet r.handlers h.id h }

/-- `ResponseHandlerRegistry.getHandler`. -/
def getHandler (r : HandlerRegistry) (id : String) : Option ResponseHandler :=
  mapGet r.handlers id

/-- `ResponseHandlerRegistry.listHandlers`. -/
def listHandlers (r : HandlerRegistry) : List ResponseHandler :=
  r.handlers.map (·.2)

/-- What the dispatch loop did with one listener for one message.  The
`continue`s of `setupMessageHandler` in order: inactive, server
constraint, channel constraint, no keyword; then handler lookup failure
(logged error, loop continues), and handler invocation (success, or a
rejection caught and logged). -/
inductive Outcome
  | skippedInactive
  | skippedServer
  | skippedChannel
  | skippedNoKeyword
  | handlerNotFoundError
  | handlerSucceeded
  | handlerFailedCaught (err : String)
deriving Repr, DecidableEq

/-- The handler was actually invoked (successfully or not). -/
def Outcome.isInvoked : Outcome → Bool
  | .handlerSucceeded => true
  | .handlerFailedCaught _ => true
  | _ => false

/-- The body of the per-listener iteration of `setupMessageHandler`'s
`messageCreate` callback.  The scope guards are the literal JS
conditions `listener.options.serverId && message.guild?.id !==
listener.options.serverId` (and the channel analogue): the declared id
must be truthy for the guard to apply. -/
def evalListener (registry : HandlerRegistry) (msg : Msg)
    (listener : MessageListener) : Outcome :=
  if !listener.active then .skippedInactive
  else if jsTruthy listener.options.serverId &&
      !(msg.guildId == listener.options.serverId) then .skippedServer
  else if jsTruthy listener.options.channelId &&
      !(some msg.channelId == listener.options.channelId) then .skippedChannel
  else if !(listener.options.keywords.any (fun keyword =>
      strIncludesCI msg.content keyword)) then .skippedNoKeyword
  else
    match getHandler registry listener.options.handlerId with
    | none => .handlerNotFoundError
    | some handler =>
      match handler.handle msg listener.options.handlerOptions with
      | .ok _ => .handlerSucceeded
      | .error e => .handlerFailedCaught e

/-- `ClientInfo` (src/types.ts): the connection handle (an opaque
identity for the `Client` object), the listener `Map`, `lastUsed`. -/
structure ClientInfo where
  client : Nat
  listeners : List (String × MessageListener)
  lastUsed : Nat
deriving Repr, DecidableEq

/-- `DiscordClientManager` state: the token→`ClientInfo` `Map`, a fresh
counter for `new Client(...)` allocations, the handles already
`destroy()`ed, and the handles that had `setupMessageHandler` attached. -/
structure ManagerState where
  clients : List (String × ClientInfo)
  nextHandle : Nat
  destroyed : List Nat
  handlersAttached : List Nat
deriving Repr, DecidableEq

/-- The `messageCreate` callback installed by `setupMessageHandler` for
`token`: return immediately on a bot author; drop the event when the
token has no pool entry; otherwise evaluate EVERY listener of the
session in map order, producing its id and outcome (JS's awaited handler
calls run one after another on the single-threaded loop). -/
def processMessage (registry : HandlerRegistry) (st : ManagerState)
    (token : String) (msg : Msg) : List (String × Outcome) :=
  if msg.authorBot then []
  else
    match mapGet st.clients token with
    | none => []
    | some clientInfo =>
      clientInfo.listeners.map (fun p => (p.2.id, evalListener registry msg p.2))

/-! ## Session pool operations -/

/-- `DiscordClientManager.getClient`, run without interleaving (one call
at a time).  `loginOk` is whether `client.login(token)` resolves; `now`
is `Date.now()`.  Pool hit: refresh `lastUsed`, return the pooled
client.  Miss: allocate a connection; on login failure `destroy()` it
and throw, leaving the pool untouched; on success insert the entry and
attach the message handler. -/
def getClient (st : ManagerState) (token : String) (loginOk : Bool)
    (now : Nat) : Except String Nat × ManagerState :=
  match mapGet st.clients token with
  | some existingClientInfo =>
    let refreshed := { existingClientInfo with lastUsed := now }
    (.ok existingClientInfo.client,
     { st with clients := mapSet st.clients token refreshed })
  | none =>
    let handle := st.nextHandle
    if loginOk then
      let clientInfo : ClientInfo :=
        { client := handle, listeners := [], lastUsed := now }
      (.ok handle,
       { st with
           clients := mapSet st.clients token clientInfo,
           nextHandle := handle + 1,
           handlersAttached := st.handlersAttached ++ [handle] })
    else
      (.error "Failed to login with the provided Discord token",
       { st with
           nextHandle := handle + 1,
           destroyed := st.destroyed ++ [handle] })

/-- `DiscordClientManager.addListener`: `await this.getClient(token)`,
re-read the pool entry, then store a fresh listener (id from `uuidv4()`,
passed in as `freshId`) with `active := true`.  No validation of
`options` of any kind happens here. -/
def addListener (st : ManagerState) (token : String)
    (options : ListenerOptions) (freshId : String) (loginOk : Bool)
    (now createdAt : Nat) : Except String String × ManagerState :=
  match getClient st token loginOk now with
  | (.error e, st') => (.error e, st')
  | (.ok _, st') =>
    match mapGet st'.clients token with
    | none => (.error "Failed to get client info", st')
    | some clientInfo =>
      let listener : MessageListener :=
        { id := freshId, options := options, active := true,
          createdAt := createdAt }
      let clientInfo' :=
        { clientInfo with
            listeners := mapSet clientInfo.listeners freshId listener }
      (.ok freshId,
       { st' with clients := mapSet st'.clients token clientInfo' })

/-- Inner loop of `DiscordClientManager.removeListener` over the pool
entries: delete from the first session whose listener map has the id. -/
def removeListenerFrom :
    List (String × ClientInfo) → String → Bool × List (String × ClientInfo)
  | [], _ => (false, [])
  | (token, clientInfo) :: rest, listenerId =>
    if mapHas clientInfo.listeners listenerId then
      (true, (token,
        { clientInfo with
            listeners := mapDelete clientInfo.listeners listenerId }) :: rest)
    else
      match removeListenerFrom rest listenerId with
      | (found, rest') => (found, (token, clientInfo) :: rest')

/-- `DiscordClientManager.removeListener`. -/
def removeListener (st : ManagerState) (listenerId : String) :
    Bool × ManagerState :=
  match removeListenerFrom st.clients listenerId with
  | (found, clients') => (found, { st with clients := clients' })

/-- `DiscordClientManager.formatListenerInfo`. -/
def formatListenerInfo (listener : MessageListener) : ListenerInfo :=
  { id := listener.id
    serverId := listener.options.serverId
    channelId := listener.options.channelId
    keywords := listener.options.keywords
    handlerId := listener.options.handlerId
    description := listener.options.description
    active := listener.active
    createdAt := listener.createdAt }

/-- `DiscordClientManager.getListeners`: with a token, that session's
listeners (empty when the token is not pooled); without, all sessions'
listeners in pool order. -/
def getListeners (st : ManagerState) (token : Option String) :
    List ListenerInfo :=
  match token with
  | some t =>
    match mapGet st.clients t with
    | none => []
    | some clientInfo => clientInfo.listeners.map (fun p => formatListenerInfo p.2)
  | none =>
    (st.clients.map (fun p => p.2.listeners.map (fun q => formatListenerInfo q.2))).flatten

/-- `DiscordClientManager.cleanupInactiveClients`: destroy and remove
every entry with `now - lastUsed > cleanupInterval`, leave the rest. -/
def cleanupInactiveClients (st : ManagerState) (now cleanupInterval : Nat) :
    ManagerState :=
  { st with
      clients := st.clients.filter
        (fun p => !(decide (now - p.2.lastUsed > cleanupInterval))),
      destroyed := st.destroyed ++
        ((st.clients.filter
          (fun p => decide (now - p.2.lastUsed > cleanupInterval))).map
            (·.2.client)) }

/-! ## Interleaved `getClient`: the cooperative-concurrency model

`getClient` has exactly one suspension point before the pool insert: the
`await client.login(token)`.  A call is therefore a two-step atomic
program: step 1 runs from entry up to that await (pool lookup; on a miss
`new Client(...)` is allocated and login begins), step 2 resumes after a
successful login (build `ClientInfo`, `Map.set` it, attach the handler,
return).  A scheduler interleaves the atomic steps of two calls for the
same token. -/

/-- Progress of one in-flight `getClient(token)` call. -/
inductive CallPhase
  | start
  | loggingIn (handle : Nat)
  | done (result : Nat)
deriving Repr, DecidableEq

/-- One atomic step of a `getClient(token)` call whose login succeeds. -/
def stepCall (st : ManagerState) (token : String) (now : Nat) :
    CallPhase → ManagerState × CallPhase
  | .start =>
    match mapGet st.clients token with
    | some existingClientInfo =>
      let refreshed := { existingClientInfo with lastUsed := now }
      ({ st with clients := mapSet st.clients token refreshed },
       .done existingClientInfo.client)
    | none =>
      ({ st with nextHandle := st.nextHandle + 1 }, .loggingIn st.nextHandle)
  | .loggingIn handle =>
    let clientInfo : ClientInfo :=
      { client := handle, listeners := [], lastUsed := now }
    ({ st with
         clients := mapSet st.clients token clientInfo,
         handlersAttached := st.handlersAttached ++ [handle] },
     .done handle)
  | .done r => (st, .done r)

/-- Run two concurrent `getClient(token)` calls under a schedule:
`false` steps call A, `true` steps call B. -/
def runTwo (token : String) (now : Nat) :
    List Bool → ManagerState → CallPhase → CallPhase →
    ManagerState × CallPhase × CallPhase
  | [], st, a, b => (st, a, b)
  | pick :: rest, st, a, b =>
    if pick then
      match stepCall st token now b with
      | (st', b') => runTwo token now rest st' a b'
    else
      match stepCall st token now a with
      | (st', a') => runTwo token now rest st' a' b

/-! ## Derived predicates used by the claims -/

/-- The keyword test of the dispatch loop: some keyword of the listener
occurs case-insensitively in the message content. -/
def keywordMatch (listener : MessageListener) (msg : Msg) : Bool :=
  listener.options.keywords.any (fun keyword => strIncludesCI msg.content keyword)

/-- The message is within the listener's declared scope: neither the
server guard nor the channel guard of the dispatch loop skips it. -/
def scopeMatches (listener : MessageListener) (msg : Msg) : Bool :=
  !(jsTruthy listener.options.serverId &&
      !(msg.guildId == listener.options.serverId)) &&
  !(jsTruthy listener.options.channelId &&
      !(some msg.channelId == listener.options.channelId))

/-- All listener-map entries across the pool, in pool/insertion order. -/
def allEntries (clients : List (String × ClientInfo)) :
    List (String × MessageListener) :=
  (clients.map (fun p => p.2.listeners)).flatten

/-- All listener-map keys across the pool. -/
def allKeys (clients : List (String × ClientInfo)) : List String :=
  (allEntries clients).map (·.1)

/-- All stored listeners' `id` fields across the pool. -/
def allIds (clients : List (String × ClientInfo)) : List String :=
  (allEntries clients).map (fun q => q.2.id)

/-- Demo fixtures for concrete witnesses and counterexamples. -/
def demoGuildA : Guild := { id := "100", name := "alpha" }

def demoGuildB : Guild := { id := "200", name := "beta" }

def demoClientNoGuilds : DiscordClient := { guilds := [], channels := [] }

def demoClientOneGuild : DiscordClient :=
  { guilds := [demoGuildA], channels := [] }

def demoClientTwoGuilds : DiscordClient :=
  { guilds := [demoGuildA, demoGuildB], channels := [] }

def demoHandlerOk : ResponseHandler :=
  { id := "ack", name := "Acknowledgment",
    description := "Replies with an acknowledgment",
    handle := fun _ _ => .ok () }

def demoHandlerThrows : ResponseHandler :=
  { id := "boomer", name := "Boom", description := "Always rejects",
    handle := fun _ _ => .error "boom" }

def demoRegistry : HandlerRegistry :=
  register (register { handlers := [] } demoHandlerOk) demoHandlerThrows

def demoListener : MessageListener :=
  { id := "L0",
    options := { keywords := ["deploy"], handlerId := "ack" },
    active := true, createdAt := 0 }

def demoClientInfoA : ClientInfo :=
  { client := 0, listeners := [("L0", demoListener)], lastUsed := 0 }

def demoClientInfoB : ClientInfo :=
  { client := 1, listeners := [], lastUsed := 1000 }

def demoPool : ManagerState :=
  { clients := [("A", demoClientInfoA), ("B", demoClientInfoB)],
    nextHandle := 2, destroyed := [], handlersAttached := [0, 1] }

def emptyManager : ManagerState :=
  { clients := [], nextHandle := 0, destroyed := [], handlersAttached := [] }

def demoBotMsg : Msg :=
  { authorBot := true, guildId := some "100", channelId := "c1",
    content := "deploy now" }

def demoMsg : Msg :=
  { authorBot := false, guildId := some "100", channelId := "c1",
    content := "please DEPLOY now" }

def demoListenerMissing : MessageListener :=
  { id := "L1",
    options := { keywords := ["deploy"], handlerId := "ghost" },
    active := true, createdAt := 0 }

def demoListenerBoom : MessageListener :=
  { id := "L2",
    options := { keywords := ["deploy"], handlerId := "boomer" },
    active := true, createdAt := 0 }

def demoClientInfoC : ClientInfo :=
  { client := 2,
    listeners := [("L1", demoListenerMissing), ("L2", demoListenerBoom)],
    lastUsed := 0 }

def demoPoolC : ManagerState :=
  { clients := [("C", demoClientInfoC)], nextHandle := 3, destroyed := [],
    handlersAttached := [2] }

def demoNoKwMsg : Msg :=
  { authorBot := false, guildId := some "100", channelId := "c1",
    content := "hello there" }

def emptyKwOptions : ListenerOptions :=
  { keywords := [], handlerId := "ack" }

/-! ## Retry executor lemmas (shared) -/

theorem retryFrom_const_error {ε α : Type} (op : Nat → Except ε α) (e : ε)
    (h : ∀ i, op i = .error e) :
    ∀ remaining attempt,
      retryFrom op attempt remaining = (.error e, attempt + remaining + 1) := by
  intro remaining
  induction remaining with
  | zero => intro attempt; unfold retryFrom; rw [h attempt]
  | succ r ih =>
    intro attempt
    unfold retryFrom
    rw [h attempt]
    show retryFrom op (attempt + 1) r = (Except.error e, attempt + (r + 1) + 1)
    rw [ih (attempt + 1)]
    congr 1
    omega

/-- An operation failing identically on every attempt is attempted the
full `n` times and the last failure is surfaced unchanged. -/
theorem retry_const_error {ε α : Type} (op : Nat → Except ε α) (e : ε)
    (h : ∀ i, op i = .error e) (n : Nat) (hn : 1 ≤ n) :
    retryWithExponentialBackoff op n = (.error e, n) := by
  unfold retryWithExponentialBackoff
  rw [retryFrom_const_error op e h (n - 1) 0]
  congr 1
  omega

/-- An operation succeeding on the first attempt is not retried. -/
theorem retry_first_ok {ε α : Type} (op : Nat → Except ε α) (a : α)
    (h : op 0 = .ok a) (n : Nat) :
    retryWithExponentialBackoff op n = (.ok a, 1) := by
  unfold retryWithExponentialBackoff retryFrom
  rw [h]

/-! ## C1 -/

/-- Claim C1 (counterexample to the claim as stated): the claim says a
deterministic zero-matches (not-found) failure of `findGuild` is
surfaced without the operation being retried, i.e. in a single attempt.
On a client in two guilds neither named "gamma", the lookup is a
deterministic not-found, yet the wrapped `findGuild` (with the default
`maxRetries = 3`) performs all 3 attempts — the deterministic failure
was retried twice — before surfacing it. -/
theorem deterministic_not_found_retried_cex :
    findGuild demoClientTwoGuilds (some "gamma") 3 =
      (.error (.serverNotFound "gamma" ["alpha", "beta"]), 3) ∧
    (3 : Nat) ≠ 1 := by
  exact ⟨rfl, by decide⟩

/-- Claim C1 (amended): `findGuild` and `findChannel` wrap their whole
attempt — deterministic not-found/ambiguous outcomes included — in the
retry executor, so EVERY failure, deterministic or transient, is retried
up to `maxRetries` attempts and the last failure is then surfaced
unchanged; a first-attempt success is returned without any retry. -/
theorem resolver_retries_all_failures (client : DiscordClient)
    (guildIdentifier : Option String) (channelIdentifier : String)
    (n : Nat) (hn : 1 ≤ n) :
    (∀ e, findGuildOnce client guildIdentifier = .error e →
      findGuild client guildIdentifier n = (.error e, n)) ∧
    (∀ g, findGuildOnce client guildIdentifier = .ok g →
      findGuild client guildIdentifier n = (.ok g, 1)) ∧
    (∀ e, findChannelOnce client channelIdentifier guildIdentifier = .error e →
      findChannel client channelIdentifier guildIdentifier n = (.error e, n)) ∧
    (∀ g, findChannelOnce client channelIdentifier guildIdentifier = .ok g →
      findChannel client channelIdentifier guildIdentifier n = (.ok g, 1)) := by
  refine ⟨fun e he => ?_, fun g hg => ?_, fun e he => ?_, fun g hg => ?_⟩
  · exact retry_const_error _ e (fun _ => he) n hn
  · exact retry_first_ok _ g hg n
  · exact retry_const_error _ e (fun _ => he) n hn
  · exact retry_first_ok _ g hg n

/-- Claim C1 witness: concrete instances of the amended claim — a
deterministic not-found on a one-guild client is surfaced after all 3
attempts, and a first-attempt success resolves in exactly 1 attempt. -/
theorem resolver_retries_all_failures_witness :
    findGuild demoClientOneGuild (some "zeta") 3 =
      (.error (.serverNotFound "zeta" ["alpha"]), 3) ∧
    findGuild demoClientOneGuild none 3 = (.ok demoGuildA, 1) := by
  refine ⟨?_, ?_⟩
  · exact (resolver_retries_all_failures demoClientOneGuild (some "zeta") "c" 3
      (by decide)).1 _ rfl
  · exact (resolver_retries_all_failures demoClientOneGuild none "c" 3
      (by decide)).2.1 _ rfl

/-! ## C4 -/

/-- Claim C4 (counterexample to the claim as stated): the claim says
that with zero known parent scopes, omitting the scope identifier never
fails with the AmbiguousScope-style error.  On a client in zero guilds,
`findGuild` with no identifier fails with exactly that error (the
"Bot is in multiple servers" message, listing the empty set of names). -/
theorem findGuild_zero_guilds_ambiguous_cex :
    findGuild demoClientNoGuilds none 3 =
      (.error (.multipleServersNoId []), 3) := by
  rfl

/-- Claim C4 (amended): with the scope identifier omitted, a session
knowing exactly one parent scope resolves to it (and never fails with
the AmbiguousScope-style error), while a session knowing zero or two or
more scopes always fails with the AmbiguousScope-style error listing all
known scope names. -/
theorem findGuild_omitted_ident_resolution (client : DiscordClient)
    (n : Nat) (hn : 1 ≤ n) :
    (∀ g, client.guilds = [g] → (findGuild client none n).1 = .ok g) ∧
    (client.guilds.length ≠ 1 →
      (findGuild client none n).1 =
        .error (.multipleServersNoId (client.guilds.map (·.name)))) := by
  constructor
  · intro g hg
    have honce : findGuildOnce client none = .ok g := by
      unfold findGuildOnce
      rw [hg]
    rw [(resolver_retries_all_failures client none "" n hn).2.1 g honce]
  · intro hlen
    have honce : findGuildOnce client none =
        .error (.multipleServersNoId (client.guilds.map (·.name))) := by
      unfold findGuildOnce
      rcases hcl : client.guilds with _ | ⟨a, _ | ⟨b, l⟩⟩
      · rfl
      · rw [hcl] at hlen; simp at hlen
      · rfl
    rw [(resolver_retries_all_failures client none "" n hn).1 _ honce]

/-- Claim C4 witness: one known scope resolves to it; two known scopes
fail with the ambiguous-style error listing both names. -/
theorem findGuild_omitted_ident_resolution_witness :
    (findGuild demoClientOneGuild none 3).1 = .ok demoGuildA ∧
    (findGuild demoClientTwoGuilds none 3).1 =
      .error (.multipleServersNoId ["alpha", "beta"]) := by
  refine ⟨?_, ?_⟩
  · exact (findGuild_omitted_ident_resolution demoClientOneGuild 3
      (by decide)).1 demoGuildA rfl
  · exact (findGuild_omitted_ident_resolution demoClientTwoGuilds 3
      (by decide)).2 (by decide)

/-! ## C5 -/

/-- Claim C5 (confirmed): when authentication fails during `getClient`
for a credential with no pooled session, the half-built connection is
destroyed, the login-failure error is raised, the pool is left without
any entry (partial or otherwise), and no message handler is attached. -/
theorem getClient_login_failure_clean (st : ManagerState) (token : String)
    (now : Nat) (habs : mapGet st.clients token = none) :
    (getClient st token false now).1 =
      .error "Failed to login with the provided Discord token" ∧
    (getClient st token false now).2.clients = st.clients ∧
    (getClient st token false now).2.handlersAttached = st.handlersAttached ∧
    st.nextHandle ∈ (getClient st token false now).2.destroyed := by
  unfold getClient
  rw [habs]
  simp

/-- Claim C5 witness: concrete failed login against the empty pool. -/
theorem getClient_login_failure_clean_witness :
    (getClient emptyManager "tok" false 7).1 =
      .error "Failed to login with the provided Discord token" ∧
    (getClient emptyManager "tok" false 7).2.clients = [] ∧
    (getClient emptyManager "tok" false 7).2.handlersAttached = [] ∧
    (0 : Nat) ∈ (getClient emptyManager "tok" false 7).2.destroyed := by
  have h := getClient_login_failure_clean emptyManager "tok" 7 rfl
  exact ⟨h.1, h.2.1, h.2.2.1, h.2.2.2⟩

/-! ## C8 -/

/-- Claim C8 (confirmed): one sweep of `cleanupInactiveClients` removes
exactly the sessions idle strictly longer than the threshold, destroys
their connections, and leaves every other session's entry (listeners and
`lastUsedAt` included) unchanged and in order. -/
theorem cleanup_evicts_exactly_idle (st : ManagerState) (now interval : Nat) :
    ((cleanupInactiveClients st now interval).clients).Sublist st.clients ∧
    (∀ token ci,
      (token, ci) ∈ (cleanupInactiveClients st now interval).clients ↔
        ((token, ci) ∈ st.clients ∧ now - ci.lastUsed ≤ interval)) ∧
    (∀ token ci, (token, ci) ∈ st.clients → now - ci.lastUsed > interval →
      ci.client ∈ (cleanupInactiveClients st now interval).destroyed) := by
  unfold cleanupInactiveClients
  refine ⟨List.filter_sublist _, fun token ci => ?_, fun token ci hmem hgt => ?_⟩
  · simp [List.mem_filter, Nat.not_lt]
  · refine List.mem_append.2 (Or.inr ?_)
    exact List.mem_map.2
      ⟨(token, ci), List.mem_filter.2 ⟨hmem, by simpa using hgt⟩, rfl⟩

/-- Claim C8 witness: threshold 1000, session "A" idle 1500 is evicted
(and its connection destroyed) while "B" used 500 ago is kept. -/
theorem cleanup_evicts_exactly_idle_witness :
    demoClientInfoA.client ∈ (cleanupInactiveClients demoPool 1500 1000).destroyed ∧
    ("B", demoClientInfoB) ∈ (cleanupInactiveClients demoPool 1500 1000).clients ∧
    ¬ ("A", demoClientInfoA) ∈ (cleanupInactiveClients demoPool 1500 1000).clients := by
  have h := cleanup_evicts_exactly_idle demoPool 1500 1000
  refine ⟨h.2.2 "A" demoClientInfoA (by decide) (by decide), ?_, ?_⟩
  · exact (h.2.1 "B" demoClientInfoB).2 ⟨by decide, by decide⟩
  · intro hmem
    exact absurd ((h.2.1 "A" demoClientInfoA).1 hmem).2 (by decide)

/-! ## C10 -/

/-- Claim C10 (confirmed): the `messageCreate` callback returns before
evaluating any listener whenever the author is a bot (any bot, not only
the session's own identity): the dispatch trace is empty, so no scope or
keyword check happens and no handler is invoked. -/
theorem dispatch_ignores_bot_messages (registry : HandlerRegistry)
    (st : ManagerState) (token : String) (msg : Msg)
    (hbot : msg.authorBot = true) :
    processMessage registry st token msg = [] := by
  unfold processMessage
  rw [hbot]
  simp

/-- Claim C10 witness: a bot-authored message whose content matches a
listener's keyword in scope still produces the empty dispatch trace. -/
theorem dispatch_ignores_bot_messages_witness :
    processMessage demoRegistry demoPool "A" demoBotMsg = [] :=
  dispatch_ignores_bot_messages demoRegistry demoPool "A" demoBotMsg rfl

/-! ## Association-list lemmas (shared) -/

theorem mapGet_mapSet_self {β : Type} (m : List (String × β)) (k : String)
    (v : β) : mapGet (mapSet m k v) k = some v := by
  induction m with
  | nil => simp [mapSet, mapGet, List.find?]
  | cons p rest ih =>
    rcases p with ⟨k', v'⟩
    unfold mapSet
    by_cases h : (k' == k) = true
    · simp [h, mapGet, List.find?]
    · simp only [h, if_false, Bool.false_eq_true]
      simp only [mapGet, List.find?, h, Bool.false_eq_true]
      exact ih

theorem mapGet_cons {β : Type} (k' : String) (v' : β)
    (rest : List (String × β)) (k : String) :
    mapGet ((k', v') :: rest) k =
      if (k' == k) = true then some v' else mapGet rest k := by
  unfold mapGet
  rw [List.find?]
  by_cases h : (k' == k) = true
  · simp [h]
  · simp [h]

theorem mapSet_cons {β : Type} (k' : String) (v' : β)
    (rest : List (String × β)) (k : String) (v : β) :
    mapSet ((k', v') :: rest) k v =
      if (k' == k) = true then (k, v) :: rest
      else (k', v') :: mapSet rest k v := rfl

theorem mapDelete_cons {β : Type} (k' : String) (v' : β)
    (rest : List (String × β)) (k : String) :
    mapDelete ((k', v') :: rest) k =
      if (k' == k) = true then rest
      else (k', v') :: mapDelete rest k := rfl

theorem removeListenerFrom_cons (t : String) (ci : ClientInfo)
    (rest : List (String × ClientInfo)) (id : String) :
    removeListenerFrom ((t, ci) :: rest) id =
      if mapHas ci.listeners id = true then
        (true, (t, { ci with listeners := mapDelete ci.listeners id }) :: rest)
      else
        ((removeListenerFrom rest id).1,
         (t, ci) :: (removeListenerFrom rest id).2) := rfl

theorem mapGet_eq_none_iff {β : Type} (m : List (String × β)) (k : String) :
    mapGet m k = none ↔ k ∉ m.map (·.1) := by
  induction m with
  | nil => simp [mapGet]
  | cons p rest ih =>
    rcases p with ⟨k', v'⟩
    rw [mapGet_cons]
    by_cases h : (k' == k) = true
    · simp [eq_of_beq h]
    · have hne : k' ≠ k := fun he => h (by rw [he]; exact beq_self_eq_true k)
      rw [if_neg h, ih]
      simp only [List.map_cons, List.mem_cons, not_or]
      constructor
      · intro hk
        exact ⟨fun he => hne he.symm, hk⟩
      · intro hk
        exact hk.2

theorem mapHas_iff {β : Type} (m : List (String × β)) (k : String) :
    mapHas m k = true ↔ k ∈ m.map (·.1) := by
  rw [mapHas, Option.isSome_iff_ne_none, ne_eq, mapGet_eq_none_iff, not_not]

theorem mapSet_absent_append {β : Type} (m : List (String × β)) (k : String)
    (v : β) (h : mapGet m k = none) : mapSet m k v = m ++ [(k, v)] := by
  induction m with
  | nil => rfl
  | cons p rest ih =>
    rcases p with ⟨k', v'⟩
    rw [mapGet_cons] at h
    by_cases hk : (k' == k) = true
    · rw [if_pos hk] at h
      cases h
    · rw [if_neg hk] at h
      unfold mapSet
      rw [if_neg hk, ih h]
      rfl

theorem mapSet_mapSet_self {β : Type} (m : List (String × β)) (k : String)
    (v v' : β) : mapSet (mapSet m k v) k v' = mapSet m k v' := by
  induction m with
  | nil => simp [mapSet, beq_self_eq_true]
  | cons p rest ih =>
    rcases p with ⟨k', v₀⟩
    by_cases hk : (k' == k) = true
    · rw [mapSet_cons, if_pos hk, mapSet_cons, if_pos (beq_self_eq_true k),
        mapSet_cons, if_pos hk]
    · rw [mapSet_cons, if_neg hk, mapSet_cons, if_neg hk, mapSet_cons,
        if_neg hk, ih]

theorem mapSet_existing_decomp {β : Type} (m : List (String × β)) (k : String)
    (v : β) (h : mapGet m k = some v) :
    ∃ A B, m = A ++ (k, v) :: B ∧
      (∀ v', mapSet m k v' = A ++ (k, v') :: B) ∧
      k ∉ A.map (·.1) := by
  induction m with
  | nil => simp [mapGet] at h
  | cons p rest ih =>
    rcases p with ⟨k', v₀⟩
    rw [mapGet_cons] at h
    by_cases hk : (k' == k) = true
    · rw [if_pos hk] at h
      refine ⟨[], rest, ?_, fun v' => ?_, by simp⟩
      · rw [List.nil_append, eq_of_beq hk, Option.some.inj h]
      · unfold mapSet
        rw [if_pos hk, List.nil_append]
    · rw [if_neg hk] at h
      obtain ⟨A, B, h1, h2, h3⟩ := ih h
      have hne : k' ≠ k := fun he => hk (by rw [he]; exact beq_self_eq_true k)
      refine ⟨(k', v₀) :: A, B, by rw [h1]; rfl, fun v' => ?_, ?_⟩
      · unfold mapSet
        rw [if_neg hk, h2 v']
        rfl
      · simp [h3]
        intro he
        exact absurd he.symm hne

theorem mapDelete_append_absent {β : Type} (m m' : List (String × β))
    (k : String) (h : k ∉ m.map (·.1)) :
    mapDelete (m ++ m') k = m ++ mapDelete m' k := by
  induction m with
  | nil => rfl
  | cons p rest ih =>
    rcases p with ⟨k', v'⟩
    have hd : k' ≠ k := by
      intro he
      exact h (by simp [he])
    have hk : (k' == k) = true → False := by
      intro hb
      exact hd (eq_of_beq hb)
    rw [List.cons_append, mapDelete_cons, if_neg hk,
      ih (fun hm => h (by simp [hm])), List.cons_append]

theorem allEntries_append (A B : List (String × ClientInfo)) :
    allEntries (A ++ B) = allEntries A ++ allEntries B := by
  simp [allEntries]

theorem allEntries_cons (x : String × ClientInfo)
    (B : List (String × ClientInfo)) :
    allEntries (x :: B) = x.2.listeners ++ allEntries B := by
  simp [allEntries]

theorem getListeners_none_eq (st : ManagerState) :
    getListeners st none =
      (allEntries st.clients).map (fun q => formatListenerInfo q.2) := by
  unfold getListeners allEntries
  rw [List.map_flatten, List.map_map]
  rfl

theorem ids_getListeners (st : ManagerState) :
    (getListeners st none).map (·.id) = allIds st.clients := by
  rw [getListeners_none_eq, List.map_map]
  rfl

theorem allIds_append (A B : List (String × ClientInfo)) :
    allIds (A ++ B) = allIds A ++ allIds B := by
  rw [allIds, allEntries_append, List.map_append]
  rfl

theorem allIds_cons (x : String × ClientInfo)
    (B : List (String × ClientInfo)) :
    allIds (x :: B) =
      x.2.listeners.map (fun q => q.2.id) ++ allIds B := by
  rw [allIds, allEntries_cons, List.map_append]
  rfl

theorem removeListenerFrom_absent (clients : List (String × ClientInfo))
    (id : String) (h : id ∉ allKeys clients) :
    removeListenerFrom clients id = (false, clients) := by
  induction clients with
  | nil => rfl
  | cons p rest ih =>
    rcases p with ⟨t, ci⟩
    rw [allKeys, allEntries_cons] at h
    simp only [List.map_append, List.mem_append, not_or] at h
    have hhas : mapHas ci.listeners id = true → False := by
      intro hb
      exact h.1 ((mapHas_iff _ _).1 hb)
    rw [removeListenerFrom_cons, if_neg hhas,
      ih (by rw [allKeys]; exact h.2)]

theorem removeListenerFrom_append_absent (A rest : List (String × ClientInfo))
    (id : String) (h : id ∉ allKeys A) :
    removeListenerFrom (A ++ rest) id =
      ((removeListenerFrom rest id).1,
       A ++ (removeListenerFrom rest id).2) := by
  induction A with
  | nil => simp
  | cons p A' ih =>
    rcases p with ⟨t, ci⟩
    rw [allKeys, allEntries_cons] at h
    simp only [List.map_append, List.mem_append, not_or] at h
    have hhas : mapHas ci.listeners id = true → False := by
      intro hb
      exact h.1 ((mapHas_iff _ _).1 hb)
    rw [List.cons_append, removeListenerFrom_cons, if_neg hhas,
      ih (by rw [allKeys]; exact h.2), List.cons_append]

/-! ## C2 -/

/-- Claim C2 (counterexample to the claim as stated): two concurrent
`getClient` calls for the same credential, interleaved at the login
suspension point (schedule: A checks the pool, B checks the pool, A
finishes login, B finishes login), each allocate and keep a connection:
A receives client 0 and B client 1 — different instances — two message
handlers are attached, and the pool keeps only B's entry, so at that
moment two live connections exist for one credential. -/
theorem getClient_concurrent_duplicate_cex :
    (runTwo "tok" 5 [false, true, false, true] emptyManager .start .start).2.1 =
      .done 0 ∧
    (runTwo "tok" 5 [false, true, false, true] emptyManager .start .start).2.2 =
      .done 1 ∧
    CallPhase.done 0 ≠ CallPhase.done 1 ∧
    (runTwo "tok" 5 [false, true, false, true] emptyManager .start
      .start).1.handlersAttached = [0, 1] ∧
    (runTwo "tok" 5 [false, true, false, true] emptyManager .start
      .start).1.clients =
      [("tok", { client := 1, listeners := [], lastUsed := 5 })] :=
  ⟨rfl, rfl, by decide, rfl, rfl⟩

/-- Claim C2 (amended): duplicate-freedom holds only sequentially: a
`getClient` call that starts while the pool already holds a session for
the credential returns that same client instance and allocates no new
connection; and of two calls for one credential run one after the other
(A to completion, then B), both return the same instance.  Two calls
interleaved at the login suspension point can instead each create a
connection (see the counterexample). -/
theorem getClient_sequential_same_instance (st : ManagerState)
    (token : String) (now : Nat) :
    (∀ ci, mapGet st.clients token = some ci →
      (stepCall st token now .start).2 = .done ci.client ∧
      (stepCall st token now .start).1.nextHandle = st.nextHandle ∧
      (stepCall st token now .start).1.handlersAttached =
        st.handlersAttached) ∧
    (mapGet st.clients token = none →
      (runTwo token now [false, false, true] st .start .start).2.1 =
        .done st.nextHandle ∧
      (runTwo token now [false, false, true] st .start .start).2.2 =
        .done st.nextHandle) := by
  constructor
  · intro ci hci
    unfold stepCall
    rw [hci]
    simp
  · intro habs
    unfold runTwo stepCall
    rw [habs]
    simp [mapGet_mapSet_self, runTwo, stepCall]

/-- Claim C2 witness: sequentially against the empty pool, both calls
return client 0. -/
theorem getClient_sequential_same_instance_witness :
    (runTwo "tok" 5 [false, false, true] emptyManager .start .start).2.1 =
      .done 0 ∧
    (runTwo "tok" 5 [false, false, true] emptyManager .start .start).2.2 =
      .done 0 :=
  (getClient_sequential_same_instance emptyManager "tok" 5).2 rfl

/-! ## Dispatch lemmas (shared) -/

/-- With a non-bot author and a pooled session, the dispatch trace is
exactly one entry per listener of the session, in map order. -/
theorem processMessage_eq_map (registry : HandlerRegistry)
    (st : ManagerState) (token : String) (msg : Msg) (ci : ClientInfo)
    (hbot : msg.authorBot = false)
    (hci : mapGet st.clients token = some ci) :
    processMessage registry st token msg =
      ci.listeners.map (fun p => (p.2.id, evalListener registry msg p.2)) := by
  unfold processMessage
  rw [hbot, hci]
  simp

/-- A listener none of whose keywords occurs in the message never has
its handler invoked. -/
theorem evalListener_no_keyword_not_invoked (registry : HandlerRegistry)
    (msg : Msg) (listener : MessageListener)
    (hkw : keywordMatch listener msg = false) :
    (evalListener registry msg listener).isInvoked = false := by
  unfold keywordMatch at hkw
  unfold evalListener
  rw [hkw]
  simp only [Bool.not_false, if_true]
  split
  · rfl
  · split
    · rfl
    · split
      · rfl
      · rfl

/-- An active, in-scope, keyword-matching listener reaches the handler
stage: the outcome is exactly the handler lookup/invocation result. -/
theorem evalListener_reaches_handler (registry : HandlerRegistry)
    (msg : Msg) (listener : MessageListener)
    (hact : listener.active = true)
    (hscope : scopeMatches listener msg = true)
    (hkw : keywordMatch listener msg = true) :
    evalListener registry msg listener =
      (match getHandler registry listener.options.handlerId with
       | none => .handlerNotFoundError
       | some handler =>
         match handler.handle msg listener.options.handlerOptions with
         | .ok _ => .handlerSucceeded
         | .error e => .handlerFailedCaught e) := by
  unfold scopeMatches at hscope
  rw [Bool.and_eq_true] at hscope
  obtain ⟨hs1, hs2⟩ := hscope
  rw [Bool.not_eq_true'] at hs1 hs2
  unfold keywordMatch at hkw
  unfold evalListener
  rw [hact, hs1, hs2, hkw]
  simp

/-! ## C6 -/

/-- Claim C6 (confirmed): for a non-bot message, a listener none of
whose keywords occurs (case-insensitive substring) in the content never
has its handler invoked; an active listener with a matching keyword and
a matching declared scope, whose handlerId is registered, always does;
and the dispatch trace contains one outcome per listener of the session
in order — every listener is evaluated, with no first-match-wins
short-circuit. -/
theorem dispatch_keyword_scope_correct (registry : HandlerRegistry)
    (st : ManagerState) (token : String) (msg : Msg) (ci : ClientInfo)
    (hbot : msg.authorBot = false)
    (hci : mapGet st.clients token = some ci) :
    processMessage registry st token msg =
      ci.listeners.map (fun p => (p.2.id, evalListener registry msg p.2)) ∧
    (∀ listener, keywordMatch listener msg = false →
      (evalListener registry msg listener).isInvoked = false) ∧
    (∀ listener handler, listener.active = true →
      scopeMatches listener msg = true →
      keywordMatch listener msg = true →
      getHandler registry listener.options.handlerId = some handler →
      (evalListener registry msg listener).isInvoked = true) := by
  refine ⟨processMessage_eq_map registry st token msg ci hbot hci,
    fun listener hkw =>
      evalListener_no_keyword_not_invoked registry msg listener hkw,
    fun listener handler hact hscope hkw hget => ?_⟩
  rw [evalListener_reaches_handler registry msg listener hact hscope hkw, hget]
  cases hh : handler.handle msg listener.options.handlerOptions <;>
    simp [hh, Outcome.isInvoked]

/-- Claim C6 witness: on session "A" of the demo pool, the message
"please DEPLOY now" matches the listener's keyword "deploy" and its
handler is invoked; the message "hello there" matches no keyword and the
handler is not invoked; the trace has exactly the session's listener. -/
theorem dispatch_keyword_scope_correct_witness :
    processMessage demoRegistry demoPool "A" demoMsg =
      [("L0", evalListener demoRegistry demoMsg demoListener)] ∧
    (evalListener demoRegistry demoMsg demoListener).isInvoked = true ∧
    (evalListener demoRegistry demoNoKwMsg demoListener).isInvoked = false := by
  have h := dispatch_keyword_scope_correct demoRegistry demoPool "A" demoMsg
    demoClientInfoA rfl rfl
  have h' := dispatch_keyword_scope_correct demoRegistry demoPool "A"
    demoNoKwMsg demoClientInfoA rfl rfl
  exact ⟨h.1,
    h.2.2 demoListener demoHandlerOk rfl (by decide) (by decide) rfl,
    h'.2.1 demoListener (by decide)⟩

/-! ## C7 -/

/-- Claim C7 (confirmed): during dispatch of one message, an otherwise
matching listener whose handlerId is not registered yields the recorded
handler-not-found error outcome and the loop continues; a handler whose
invocation rejects yields the caught-and-logged outcome; in both cases
the trace still has one outcome for every listener of the session — the
dispatcher never aborts. -/
theorem dispatch_error_isolation (registry : HandlerRegistry)
    (st : ManagerState) (token : String) (msg : Msg) (ci : ClientInfo)
    (listener : MessageListener)
    (hbot : msg.authorBot = false)
    (hci : mapGet st.clients token = some ci)
    (hact : listener.active = true)
    (hscope : scopeMatches listener msg = true)
    (hkw : keywordMatch listener msg = true) :
    (getHandler registry listener.options.handlerId = none →
      evalListener registry msg listener = .handlerNotFoundError) ∧
    (∀ handler e, getHandler registry listener.options.handlerId = some handler →
      handler.handle msg listener.options.handlerOptions = .error e →
      evalListener registry msg listener = .handlerFailedCaught e) ∧
    (processMessage registry st token msg).length = ci.listeners.length := by
  refine ⟨fun hget => ?_, fun handler e hget hthrow => ?_, ?_⟩
  · rw [evalListener_reaches_handler registry msg listener hact hscope hkw]
    simp [hget]
  · rw [evalListener_reaches_handler registry msg listener hact hscope hkw]
    simp [hget, hthrow]
  · rw [processMessage_eq_map registry st token msg ci hbot hci]
    exact List.length_map _ _

/-- Claim C7 witness: on session "C", listener "L1" references the
unregistered handler "ghost" and yields the recorded error outcome,
listener "L2" references the rejecting handler "boomer" and yields the
caught-failure outcome, and the trace still covers both listeners. -/
theorem dispatch_error_isolation_witness :
    evalListener demoRegistry demoMsg demoListenerMissing =
      .handlerNotFoundError ∧
    evalListener demoRegistry demoMsg demoListenerBoom =
      .handlerFailedCaught "boom" ∧
    (processMessage demoRegistry demoPoolC "C" demoMsg).length = 2 := by
  have h1 := dispatch_error_isolation demoRegistry demoPoolC "C" demoMsg
    demoClientInfoC demoListenerMissing rfl rfl rfl (by decide) (by decide)
  have h2 := dispatch_error_isolation demoRegistry demoPoolC "C" demoMsg
    demoClientInfoC demoListenerBoom rfl rfl rfl (by decide) (by decide)
  exact ⟨h1.1 rfl, h2.2.1 demoHandlerThrows "boom" rfl rfl, h1.2.2⟩

/-! ## `addListener` state equations (shared) -/

/-- `addListener` against a pooled session: `getClient` refreshes
`lastUsed`, then the fresh listener is stored on that session. -/
theorem addListener_hit (st : ManagerState) (token : String)
    (options : ListenerOptions) (freshId : String) (loginOk : Bool)
    (now createdAt : Nat) (ci : ClientInfo)
    (hmg : mapGet st.clients token = some ci) :
    addListener st token options freshId loginOk now createdAt =
      (.ok freshId,
       { st with clients := (
           mapSet (mapSet st.clients token { ci with lastUsed := now }) token
             { client := ci.client,
               listeners := (mapSet ci.listeners freshId
                 { id := freshId, options := options, active := true,
                   createdAt := createdAt }),
               lastUsed := now }) }) := by
  unfold addListener getClient
  simp only [hmg, mapGet_mapSet_self]

/-- `addListener` for an unpooled credential with a successful login:
a fresh connection is pooled, then the listener stored on it. -/
theorem addListener_miss (st : ManagerState) (token : String)
    (options : ListenerOptions) (freshId : String) (now createdAt : Nat)
    (hmg : mapGet st.clients token = none) :
    addListener st token options freshId true now createdAt =
      (.ok freshId,
       { st with
           clients := (mapSet
             (mapSet st.clients token
               { client := st.nextHandle, listeners := [], lastUsed := now })
             token
             { client := st.nextHandle,
               listeners := (mapSet [] freshId
                 { id := freshId, options := options, active := true,
                   createdAt := createdAt }),
               lastUsed := now }),
           nextHandle := st.nextHandle + 1,
           handlersAttached := st.handlersAttached ++ [st.nextHandle] }) := by
  unfold addListener getClient
  simp only [hmg, mapGet_mapSet_self, if_true]

/-! ## C3 -/

/-- Claim C3 (counterexample to the claim as stated): the claim says a
`create_listener`/`addListener` call with an empty keywords sequence
fails before storing anything.  In fact `addListener` with `keywords =
[]` against the empty pool succeeds, returns the fresh ID, and the
listener — with its empty keyword list — is stored and visible in
`getListeners`. -/
theorem addListener_empty_keywords_accepted_cex :
    (addListener emptyManager "tok" emptyKwOptions "L9" true 5 5).1 =
      .ok "L9" ∧
    getListeners (addListener emptyManager "tok" emptyKwOptions "L9" true 5 5).2
      none =
      [{ id := "L9", serverId := none, channelId := none, keywords := [],
         handlerId := "ack", description := none, active := true,
         createdAt := 5 }] :=
  ⟨rfl, rfl⟩

/-- Claim C3 (amended): `addListener` performs no validation of
`keywords` (the schema also allows the empty array): whenever the
session exists or login succeeds, the call — empty keywords included —
returns the fresh ID and stores the listener unchanged on the session;
a stored listener with an empty keyword list simply never has its
handler invoked at dispatch. -/
theorem addListener_no_keyword_validation (st : ManagerState)
    (token : String) (options : ListenerOptions) (freshId : String)
    (loginOk : Bool) (now createdAt : Nat)
    (hok : mapHas st.clients token = true ∨ loginOk = true) :
    (addListener st token options freshId loginOk now createdAt).1 =
      .ok freshId ∧
    (∃ ci, mapGet
        (addListener st token options freshId loginOk now createdAt).2.clients
        token = some ci ∧
      mapGet ci.listeners freshId =
        some { id := freshId, options := options, active := true,
               createdAt := createdAt }) ∧
    (∀ registry m listener, listener.options.keywords = [] →
      (evalListener registry m listener).isInvoked = false) := by
  have hmain :
      (addListener st token options freshId loginOk now createdAt).1 =
        .ok freshId ∧
      (∃ ci, mapGet
          (addListener st token options freshId loginOk now createdAt).2.clients
          token = some ci ∧
        mapGet ci.listeners freshId =
          some { id := freshId, options := options, active := true,
                 createdAt := createdAt }) := by
    rcases hmg : mapGet st.clients token with _ | ci
    · have hlog : loginOk = true := by
        rcases hok with hok | hok
        · rw [mapHas, hmg] at hok
          simp at hok
        · exact hok
      subst hlog
      rw [addListener_miss st token options freshId now createdAt hmg]
      exact ⟨rfl, ⟨_, mapGet_mapSet_self _ _ _, mapGet_mapSet_self _ _ _⟩⟩
    · rw [addListener_hit st token options freshId loginOk now createdAt ci hmg]
      exact ⟨rfl, ⟨_, mapGet_mapSet_self _ _ _, mapGet_mapSet_self _ _ _⟩⟩
  refine ⟨hmain.1, hmain.2, fun registry m listener hkw => ?_⟩
  apply evalListener_no_keyword_not_invoked
  unfold keywordMatch
  rw [hkw]
  rfl

/-- Claim C3 witness: empty keywords stored against an existing demo
session; and such a listener is never invoked. -/
theorem addListener_no_keyword_validation_witness :
    (addListener demoPool "B" emptyKwOptions "L7" false 9 9).1 = .ok "L7" ∧
    (∃ ci, mapGet
        (addListener demoPool "B" emptyKwOptions "L7" false 9 9).2.clients
        "B" = some ci ∧
      mapGet ci.listeners "L7" =
        some { id := "L7", options := emptyKwOptions, active := true,
               createdAt := 9 }) ∧
    (evalListener demoRegistry demoMsg
      { id := "L7", options := emptyKwOptions, active := true,
        createdAt := 9 }).isInvoked = false := by
  have h := addListener_no_keyword_validation demoPool "B" emptyKwOptions "L7"
    false 9 9 (Or.inl (by decide))
  exact ⟨h.1, h.2.1, h.2.2 demoRegistry demoMsg _ rfl⟩

/-! ## C9 machinery -/

theorem removeListener_eq (st : ManagerState) (id : String) :
    removeListener st id =
      ((removeListenerFrom st.clients id).1,
       { st with clients := (removeListenerFrom st.clients id).2 }) := by
  unfold removeListener
  rfl

/-- Core of the add/remove round trip: in a pool whose only occurrence
of `freshId` is the freshly appended listener of one session, removal
finds exactly that listener, restores the session's previous listener
map, and a second removal finds nothing and changes nothing. -/
theorem roundtrip_core (A B : List (String × ClientInfo)) (token : String)
    (cc lu : Nat) (base : List (String × MessageListener))
    (lst : MessageListener) (freshId : String)
    (hA : freshId ∉ allKeys A) (hB : freshId ∉ allKeys B)
    (hbase : freshId ∉ base.map (·.1)) :
    removeListenerFrom
        (A ++ (token, ⟨cc, base ++ [(freshId, lst)], lu⟩) :: B) freshId =
      (true, A ++ (token, ⟨cc, base, lu⟩) :: B) ∧
    removeListenerFrom (A ++ (token, ⟨cc, base, lu⟩) :: B) freshId =
      (false, A ++ (token, ⟨cc, base, lu⟩) :: B) := by
  constructor
  · rw [removeListenerFrom_append_absent A _ freshId hA,
      removeListenerFrom_cons]
    have hhas : mapHas (base ++ [(freshId, lst)]) freshId = true := by
      rw [mapHas_iff]
      simp
    rw [if_pos hhas, mapDelete_append_absent base _ freshId hbase]
    have hdel : mapDelete [(freshId, lst)] freshId = [] := by
      rw [mapDelete_cons, if_pos (beq_self_eq_true freshId)]
    rw [hdel, List.append_nil]
  · apply removeListenerFrom_absent
    rw [allKeys, allEntries_append, allEntries_cons]
    simp only [List.map_append, List.mem_append, not_or]
    rw [allKeys] at hA hB
    exact ⟨hA, hbase, hB⟩

/-! ## C9 -/

/-- Claim C9 (confirmed): the ID returned by `addListener` (the fresh
uuid — freshness expressed as not occurring anywhere in the pool)
appears in `getListeners` output; `removeListener` on it returns `true`
and afterwards the ID no longer appears; calling `removeListener` on it
a second time returns `false`; and `removeListener` of any ID present in
no session returns `false` and leaves the state unchanged. -/
theorem listener_roundtrip_remove_idempotent (st : ManagerState)
    (token : String) (options : ListenerOptions) (freshId : String)
    (loginOk : Bool) (now createdAt : Nat)
    (hok : mapHas st.clients token = true ∨ loginOk = true)
    (hkeys : freshId ∉ allKeys st.clients)
    (hids : freshId ∉ (getListeners st none).map (·.id)) :
    freshId ∈
      ((getListeners
        (addListener st token options freshId loginOk now createdAt).2
        none).map (·.id)) ∧
    (removeListener
      (addListener st token options freshId loginOk now createdAt).2
      freshId).1 = true ∧
    freshId ∉
      ((getListeners
        (removeListener
          (addListener st token options freshId loginOk now createdAt).2
          freshId).2 none).map (·.id)) ∧
    (removeListener
      (removeListener
        (addListener st token options freshId loginOk now createdAt).2
        freshId).2 freshId).1 = false ∧
    (∀ id, id ∉ allKeys st.clients → removeListener st id = (false, st)) := by
  have hlast : ∀ id, id ∉ allKeys st.clients →
      removeListener st id = (false, st) := by
    intro id hid
    rw [removeListener_eq, removeListenerFrom_absent st.clients id hid]
  rw [ids_getListeners] at hids
  rcases hmg : mapGet st.clients token with _ | ci
  · -- pool miss: the session is created first, listeners start empty
    have hlog : loginOk = true := by
      rcases hok with hok | hok
      · rw [mapHas, hmg] at hok
        simp at hok
      · exact hok
    subst hlog
    have hstE :
        (addListener st token options freshId true now createdAt).2.clients =
          st.clients ++
            (token, ⟨st.nextHandle,
              [] ++ [(freshId, ⟨freshId, options, true, createdAt⟩)],
              now⟩) :: [] := by
      rw [addListener_miss st token options freshId now createdAt hmg,
        mapSet_mapSet_self, mapSet_absent_append st.clients token _ hmg]
      rfl
    have hB : freshId ∉ allKeys ([] : List (String × ClientInfo)) := by
      simp [allKeys, allEntries]
    have hbase :
        freshId ∉ ([] : List (String × MessageListener)).map (·.1) := by
      simp
    have core := roundtrip_core st.clients [] token st.nextHandle now []
      ⟨freshId, options, true, createdAt⟩ freshId hkeys hB hbase
    have key1 : removeListenerFrom
        (addListener st token options freshId true now createdAt).2.clients
        freshId =
        (true, st.clients ++ (token, ⟨st.nextHandle, [], now⟩) :: []) := by
      rw [hstE]
      exact core.1
    have hrm : removeListener
        (addListener st token options freshId true now createdAt).2 freshId =
        (true,
         { (addListener st token options freshId true now createdAt).2 with
             clients :=
               st.clients ++ (token, ⟨st.nextHandle, [], now⟩) :: [] }) := by
      rw [removeListener_eq, key1]
    refine ⟨?_, ?_, ?_, ?_, hlast⟩
    · rw [ids_getListeners, hstE, allIds_append, allIds_cons]
      simp [List.mem_append]
    · rw [hrm]
    · rw [hrm, ids_getListeners]
      show freshId ∉ allIds
        (st.clients ++ (token, (⟨st.nextHandle, [], now⟩ : ClientInfo)) :: [])
      rw [allIds_append, allIds_cons]
      simp only [List.mem_append, not_or]
      refine ⟨hids, ?_, ?_⟩
      · simp
      · simp [allIds, allEntries]
    · rw [hrm, removeListener_eq]
      have key2 : removeListenerFrom
          ({ (addListener st token options freshId true now createdAt).2 with
              clients :=
                st.clients ++
                  (token, (⟨st.nextHandle, [], now⟩ : ClientInfo)) ::
                    [] }).clients
          freshId =
          (false,
           st.clients ++ (token, ⟨st.nextHandle, [], now⟩) :: []) := core.2
      rw [key2]
  · -- pool hit: the listener is stored on the existing session
    obtain ⟨A, B, hsplit, hset, hApre⟩ :=
      mapSet_existing_decomp st.clients token ci hmg
    have hkeys' := hkeys
    rw [hsplit, allKeys, allEntries_append, allEntries_cons] at hkeys'
    simp only [List.map_append, List.mem_append, not_or] at hkeys'
    have hA : freshId ∉ allKeys A := by
      rw [allKeys]
      exact hkeys'.1
    have hbase : freshId ∉ ci.listeners.map (·.1) := hkeys'.2.1
    have hB : freshId ∉ allKeys B := by
      rw [allKeys]
      exact hkeys'.2.2
    have hbase_none : mapGet ci.listeners freshId = none :=
      (mapGet_eq_none_iff _ _).2 hbase
    have hstE :
        (addListener st token options freshId loginOk now createdAt).2.clients =
          A ++
            (token, ⟨ci.client,
              ci.listeners ++ [(freshId, ⟨freshId, options, true, createdAt⟩)],
              now⟩) :: B := by
      rw [addListener_hit st token options freshId loginOk now createdAt ci hmg,
        mapSet_mapSet_self, hset, mapSet_absent_append ci.listeners freshId _
          hbase_none]
    have core := roundtrip_core A B token ci.client now ci.listeners
      ⟨freshId, options, true, createdAt⟩ freshId hA hB hbase
    have key1 : removeListenerFrom
        (addListener st token options freshId loginOk now createdAt).2.clients
        freshId =
        (true, A ++ (token, ⟨ci.client, ci.listeners, now⟩) :: B) := by
      rw [hstE]
      exact core.1
    have hrm : removeListener
        (addListener st token options freshId loginOk now createdAt).2
        freshId =
        (true,
         { (addListener st token options freshId loginOk now createdAt).2 with
             clients :=
               A ++ (token, ⟨ci.client, ci.listeners, now⟩) :: B }) := by
      rw [removeListener_eq, key1]
    have hidsplit := hids
    rw [hsplit, allIds_append, allIds_cons] at hidsplit
    simp only [List.mem_append, not_or] at hidsplit
    refine ⟨?_, ?_, ?_, ?_, hlast⟩
    · rw [ids_getListeners, hstE, allIds_append, allIds_cons]
      simp [List.mem_append]
    · rw [hrm]
    · rw [hrm, ids_getListeners]
      show freshId ∉ allIds
        (A ++ (token, (⟨ci.client, ci.listeners, now⟩ : ClientInfo)) :: B)
      rw [allIds_append, allIds_cons]
      simp only [List.mem_append, not_or]
      exact ⟨hidsplit.1, hidsplit.2.1, hidsplit.2.2⟩
    · rw [hrm, removeListener_eq]
      have key2 : removeListenerFrom
          ({ (addListener st token options freshId loginOk now
                createdAt).2 with
              clients :=
                A ++
                  (token, (⟨ci.client, ci.listeners, now⟩ : ClientInfo)) ::
                    B }).clients
          freshId =
          (false, A ++ (token, ⟨ci.client, ci.listeners, now⟩) :: B) := core.2
      rw [key2]

/-- Claim C9 witness: against the demo pool, adding listener "L5" to
session "B" makes "L5" visible in `listListeners`; removing it returns
`true` and it disappears; removing again returns `false`; and removing
the never-present ID "L6" returns `false` and changes nothing. -/
theorem listener_roundtrip_remove_idempotent_witness :
    "L5" ∈
      ((getListeners (addListener demoPool "B"
        { keywords := ["ping"], handlerId := "ack" } "L5" false 3 3).2
        none).map (·.id)) ∧
    (removeListener (addListener demoPool "B"
      { keywords := ["ping"], handlerId := "ack" } "L5" false 3 3).2
      "L5").1 = true ∧
    "L5" ∉
      ((getListeners (removeListener (addListener demoPool "B"
        { keywords := ["ping"], handlerId := "ack" } "L5" false 3 3).2
        "L5").2 none).map (·.id)) ∧
    (removeListener (removeListener (addListener demoPool "B"
      { keywords := ["ping"], handlerId := "ack" } "L5" false 3 3).2
      "L5").2 "L5").1 = false ∧
    removeListener demoPool "L6" = (false, demoPool) := by
  have h := listener_roundtrip_remove_idempotent demoPool "B"
    { keywords := ["ping"], handlerId := "ack" } "L5" false 3 3
    (Or.inl (by decide)) (by decide) (by decide)
  exact ⟨h.1, h.2.1, h.2.2.1, h.2.2.2.1, h.2.2.2.2 "L6" (by decide)⟩

end McpDiscord
